import Mathlib

/-!
Verification development for the reviews-scraper repository.

The JavaScript source is shallowly embedded: dates are modeled at day
granularity (the pipeline never compares times of day), HTML extraction is
modeled over the per-element strings the cheerio selectors produce, and the
retry / pagination loops are modeled as total functions over per-attempt and
per-page outcomes.
-/

namespace ReviewsScraper

/-! Calendar model: JavaScript `Date` values at day granularity. -/

/-- Day number of a civil date (year, month 1-12, day), with day 0 = 1970-01-01.
The day component may be out of range; the result is affine in `d`, matching
the way the JavaScript `Date` constructor normalizes day overflow. -/
def daysFromCivil (y m d : Int) : Int :=
  let y2 := if m ≤ 2 then y - 1 else y
  let era := (if 0 ≤ y2 then y2 else y2 - 399) / 400
  let yoe := y2 - era * 400
  let mp := if 2 < m then m - 3 else m + 9
  let doy := (153 * mp + 2) / 5 + d - 1
  let doe := yoe * 365 + yoe / 4 - yoe / 100 + doy
  era * 146097 + doe - 719468

/-- Arguments of a JavaScript `new Date(year, month, day)` call: the month is
0-based and the components may be out of range (the constructor normalizes). -/
structure JsDate where
  year : Int
  month : Int
  day : Int
deriving DecidableEq, Repr

/-- Timestamp of a `JsDate` at day granularity, with JavaScript's constructor
normalization of out-of-range months and days. -/
def JsDate.value (dt : JsDate) : Int :=
  let ym := dt.year * 12 + dt.month
  daysFromCivil (ym.fdiv 12) (ym.fmod 12 + 1) dt.day

def isLeapYear (y : Int) : Bool :=
  (y % 4 == 0 && y % 100 != 0) || y % 400 == 0

def daysInMonth (y m : Int) : Int :=
  if m == 2 then (if isLeapYear y then 29 else 28)
  else if m == 4 || m == 6 || m == 9 || m == 11 then 30
  else 31

/-! String helpers shared by the embedded functions. -/

/-- ASCII lower-casing, the fragment of `toLowerCase` the scrapers rely on. -/
def jsToLower (s : String) : String := String.mk (s.toList.map Char.toLower)

/-- Does `needle` occur at the head of `hay` (case-sensitively)? -/
def subAt : List Char → List Char → Bool
  | [], _ => true
  | _ :: _, [] => false
  | a :: as, b :: bs => a == b && subAt as bs

/-- Does `needle` occur at the head of `hay`, case-insensitively? -/
def subAtCI : List Char → List Char → Bool
  | [], _ => true
  | _ :: _, [] => false
  | a :: as, b :: bs => a.toLower == b.toLower && subAtCI as bs

/-- First index at which `needle` occurs in the list, comparing
case-insensitively when `ci` is true. -/
def findSubAux (ci : Bool) (needle : List Char) : List Char → Nat → Option Nat
  | [], i => if needle.isEmpty then some i else none
  | c :: rest, i =>
    if (if ci then subAtCI needle (c :: rest) else subAt needle (c :: rest)) then some i
    else findSubAux ci needle rest (i + 1)

/-- JavaScript `String.prototype.includes`. -/
def containsSub (hay needle : String) : Bool :=
  (findSubAux false needle.toList hay.toList 0).isSome

def findSubCI (needle hay : List Char) : Option Nat :=
  findSubAux true needle hay 0

def digitsVal : List Char → Nat → Nat
  | [], acc => acc
  | c :: cs, acc => digitsVal cs (acc * 10 + (c.toNat - 48))

/-- JavaScript `parseInt` in base 10: leading whitespace skipped, optional
sign, then a maximal run of digits; `none` models `NaN`. -/
def jsParseInt (s : String) : Option Int :=
  let cs := s.toList.dropWhile Char.isWhitespace
  match cs with
  | '-' :: rest =>
    let ds := rest.takeWhile Char.isDigit
    if ds.isEmpty then none else some (-(digitsVal ds 0 : Int))
  | '+' :: rest =>
    let ds := rest.takeWhile Char.isDigit
    if ds.isEmpty then none else some (digitsVal ds 0 : Int)
  | _ =>
    let ds := cs.takeWhile Char.isDigit
    if ds.isEmpty then none else some (digitsVal ds 0 : Int)

def allDigits (s : String) : Bool := s.toList.all Char.isDigit

/-- JavaScript `String.prototype.trim`. -/
def jsTrim (s : String) : String :=
  let l := s.toList.dropWhile Char.isWhitespace
  String.mk ((l.reverse.dropWhile Char.isWhitespace).reverse)

/-- Global, non-overlapping, left-to-right replacement (the `replace(/pat/g)`
calls of the source); the skip counter consumes the rest of a match. -/
def replaceAllGo (pat rep : List Char) : List Char → Nat → List Char
  | [], _ => []
  | _ :: cs, k + 1 => replaceAllGo pat rep cs k
  | c :: cs, 0 =>
    if subAt pat (c :: cs) && !pat.isEmpty then
      rep ++ replaceAllGo pat rep cs (pat.length - 1)
    else c :: replaceAllGo pat rep cs 0

def jsReplace (s pat rep : String) : String :=
  String.mk (replaceAllGo pat.toList rep.toList s.toList 0)

/-- Split on every occurrence of a (nonempty) separator. -/
def splitOnGo (sep : List Char) : List Char → List Char → Nat → List (List Char)
  | [], acc, _ => [acc.reverse]
  | _ :: cs, acc, k + 1 => splitOnGo sep cs acc k
  | c :: cs, acc, 0 =>
    if subAt sep (c :: cs) && !sep.isEmpty then
      acc.reverse :: splitOnGo sep cs [] (sep.length - 1)
    else splitOnGo sep cs (c :: acc) 0

def jsSplitOn (s sep : String) : List String :=
  (splitOnGo sep.toList s.toList [] 0).map String.mk

def jsEndsWith (s suffixStr : String) : Bool :=
  subAt suffixStr.toList.reverse s.toList.reverse

/-- Models `new Date(string)` at day granularity for the ECMAScript-defined
date-only ISO form `YYYY-MM-DD` (the format the job descriptors and the
Trustpilot datetime attributes use); every other string is modeled as an
invalid date (`none`, playing `NaN`). -/
def jsNewDateString (s : String) : Option JsDate :=
  match jsSplitOn s "-" with
  | [ys, ms, ds] =>
    if ys.length == 4 && ms.length == 2 && ds.length == 2
        && allDigits ys && allDigits ms && allDigits ds then
      let y : Int := (digitsVal ys.toList 0 : Nat)
      let m : Int := (digitsVal ms.toList 0 : Nat)
      let d : Int := (digitsVal ds.toList 0 : Nat)
      if 1 ≤ m ∧ m ≤ 12 ∧ 1 ≤ d ∧ d ≤ daysInMonth y m then some ⟨y, m - 1, d⟩
      else none
    else none
  | _ => none

/-! The utils/common.js date helpers. -/

/-- `parseDate` from utils/common.js: the explicit `YYYY/MM/DD` and
`MM/DD/YYYY` patterns build a `new Date(y, m-1, d)`; anything else falls back
to the general `new Date(string)` parse (modeled by `jsNewDateString`). -/
def parseDate (dateStr : String) : Option JsDate :=
  let t := jsTrim dateStr
  match jsSplitOn t "/" with
  | [a, b, c] =>
    if a.length == 4 && allDigits a
        && decide (1 ≤ b.length) && decide (b.length ≤ 2) && allDigits b
        && decide (1 ≤ c.length) && decide (c.length ≤ 2) && allDigits c then
      some ⟨(digitsVal a.toList 0 : Nat), ((digitsVal b.toList 0 : Nat) : Int) - 1,
        (digitsVal c.toList 0 : Nat)⟩
    else if decide (1 ≤ a.length) && decide (a.length ≤ 2) && allDigits a
        && decide (1 ≤ b.length) && decide (b.length ≤ 2) && allDigits b
        && c.length == 4 && allDigits c then
      some ⟨(digitsVal c.toList 0 : Nat), ((digitsVal a.toList 0 : Nat) : Int) - 1,
        (digitsVal b.toList 0 : Nat)⟩
    else jsNewDateString t
  | _ => jsNewDateString t

/-- JavaScript `>=` on (possibly invalid) dates: any comparison with an
invalid date (`NaN`) is false. -/
def jsCmpGE : Option JsDate → Option JsDate → Bool
  | some x, some y => decide (y.value ≤ x.value)
  | _, _ => false

/-- JavaScript `<=` on (possibly invalid) dates. -/
def jsCmpLE : Option JsDate → Option JsDate → Bool
  | some x, some y => decide (x.value ≤ y.value)
  | _, _ => false

/-- JavaScript `<` on (possibly invalid) dates. -/
def jsCmpLT : Option JsDate → Option JsDate → Bool
  | some x, some y => decide (x.value < y.value)
  | _, _ => false

/-- The canonical review record shape shared by Capterra and Trustpilot. -/
structure Review where
  reviewerName : String
  jobTitle : String
  reviewDate : String
  stars : String
  reviewTitle : String
  reviewText : String
deriving DecidableEq, Repr

/-- `filterReviewsByDate` from utils/common.js. -/
def filterReviewsByDate (reviews : List Review) (startDateStr endDateStr : String) :
    List Review :=
  let start := parseDate startDateStr
  let endD := parseDate endDateStr
  reviews.filter fun review =>
    let rd := parseDate review.reviewDate
    rd.isSome && jsCmpGE rd start && jsCmpLE rd endD

/-- The `while (newMonth < 0) { newMonth += 12; newYear--; }` loop of
`calculateDateFromRelative`. -/
def borrowMonths (newMonth newYear : Int) : Int × Int :=
  if newMonth < 0 then borrowMonths (newMonth + 12) (newYear - 1)
  else (newMonth, newYear)
termination_by (-newMonth).toNat
decreasing_by omega

/-- `calculateDateFromRelative` from utils/common.js. The "current moment"
(`new Date()` in the source) is passed explicitly as `currentDate`; an
unparseable leading integer (`parseInt` returning `NaN`) yields an invalid
date, modeled as `none`. -/
def calculateDateFromRelative (currentDate : JsDate) (relativeTimeStr : String) :
    Option JsDate :=
  let lowerStr := jsToLower relativeTimeStr
  if containsSub lowerStr "year" then
    match jsParseInt relativeTimeStr with
    | some years => some ⟨currentDate.year - years, currentDate.month, currentDate.day⟩
    | none => none
  else if containsSub lowerStr "month" then
    match jsParseInt relativeTimeStr with
    | some months =>
      let nm := borrowMonths (currentDate.month - months) currentDate.year
      some ⟨nm.2, nm.1, currentDate.day⟩
    | none => none
  else if containsSub lowerStr "day" then
    match jsParseInt relativeTimeStr with
    | some days => some ⟨currentDate.year, currentDate.month, currentDate.day - days⟩
    | none => none
  else
    jsNewDateString relativeTimeStr

/-- `isReviewInDateRange` from utils/common.js; `now` is the ambient current
moment consumed by `calculateDateFromRelative`. -/
def isReviewInDateRange (now : JsDate) (reviewDateStr startDate endDate : String) : Bool :=
  let reviewDate := calculateDateFromRelative now reviewDateStr
  let start := jsNewDateString startDate
  let endD := jsNewDateString endDate
  jsCmpGE reviewDate start && jsCmpLE reviewDate endD

/-! The CSV export (export_reviews.js `convertToCSV`). -/

/-- A JavaScript value as it can appear in a review record field. -/
inductive JsVal where
  | vnull
  | vnum (n : Int)
  | vstr (s : String)
deriving DecidableEq, Repr

/-- A JavaScript object, as an insertion-ordered association list. -/
abbrev JsRecord := List (String × JsVal)

/-- The argument of `convertToCSV`: either not an array at all, or an array
of records. -/
inductive JsInput where
  | notArray (v : JsVal)
  | array (reviews : List JsRecord)

/-- `review[field] != null ? String(review[field]) : ''`. -/
def jsStringOfField (review : JsRecord) (field : String) : String :=
  match review.lookup field with
  | some .vnull => ""
  | some (.vnum n) => toString n
  | some (.vstr s) => s
  | none => ""

/-- `convertToCSV` from export_reviews.js. -/
def convertToCSV (reviews : JsInput) : String :=
  match reviews with
  | .notArray _ => ""
  | .array [] => ""
  | .array (first :: rest) =>
    let headers := first.map Prod.fst
    let csvRows := (first :: rest).map fun review =>
      String.intercalate "," (headers.map fun field =>
        "\"" ++ jsReplace (jsStringOfField review field) "\"" "\"\"" ++ "\"")
    String.intercalate "\n" (String.intercalate "," headers :: csvRows)

/-- Header row per the spec's export contract: the key set of the first
record in insertion order, comma-joined. -/
def specCsvHeader (first : JsRecord) : String :=
  String.intercalate "," (first.map Prod.fst)

/-- One data row per the spec's export contract: the first record's keys
govern every row, and every value is rendered inside double quotes with
embedded double quotes doubled. -/
def specCsvRow (first record : JsRecord) : String :=
  String.intercalate "," ((first.map Prod.fst).map fun k =>
    "\"" ++ jsReplace (jsStringOfField record k) "\"" "\"\"" ++ "\"")

/-! The Trustpilot parser (`parsedDataFromHTML_Trustpilot`), modeled over the
per-card strings its cheerio selectors extract. -/

/-- The raw extractions for one Trustpilot review card. `ratingAttr` and
`datetimeAttr` are attribute lookups (`none` when the attribute is absent);
the text fields are `.text()` results. -/
structure TpCard where
  reviewerName : String
  ratingAttr : Option String
  title : String
  reviewText : String
  datetimeAttr : Option String
  timeText : String
deriving DecidableEq, Repr

/-- The body of the `$("div.styles_cardWrapper...").each` loop: one card
always becomes one record (there is no guard). -/
def tpCardToReview (card : TpCard) : Review :=
  let reviewerName := jsTrim card.reviewerName
  let stars := card.ratingAttr.getD ""
  let title := jsTrim card.title
  let reviewText := jsTrim card.reviewText
  let rd0 := match card.datetimeAttr with
    | some a => if a == "" then jsTrim card.timeText else a
    | none => jsTrim card.timeText
  let reviewDate := if containsSub rd0 "T" then ((jsSplitOn rd0 "T").headD "") else rd0
  { reviewerName, jobTitle := "", reviewDate, stars, reviewTitle := title, reviewText }

/-- Match of the header regex `^(.+?)\s+Reviews\s+([\d,]+)$` against the
remainder after a candidate lazy prefix: at least one whitespace character,
the literal `Reviews`, at least one whitespace character, then a nonempty
digits-and-commas run reaching the end. Returns the count group. -/
def tpHeaderTail (cs : List Char) : Option String :=
  let ws1 := cs.takeWhile Char.isWhitespace
  if ws1.isEmpty then none
  else
    let r1 := cs.drop ws1.length
    if subAt "Reviews".toList r1 then
      let r2 := r1.drop "Reviews".toList.length
      let ws2 := r2.takeWhile Char.isWhitespace
      if ws2.isEmpty then none
      else
        let r3 := r2.drop ws2.length
        if !r3.isEmpty && r3.all (fun c => c.isDigit || c == ',') then some (String.mk r3)
        else none
    else none

/-- The header regex `^(.+?)\s+Reviews\s+([\d,]+)$`: the lazy group takes the
shortest nonempty prefix whose remainder matches the anchored tail. -/
def tpHeaderMatchGo (seen : List Char) : List Char → Option (String × String)
  | [] => none
  | c :: rest =>
    match tpHeaderTail rest with
    | some count => some (String.mk (seen ++ [c]), count)
    | none => tpHeaderMatchGo (seen ++ [c]) rest

def tpHeaderMatch (s : String) : Option (String × String) :=
  tpHeaderMatchGo [] s.toList

/-- The shape `parsedDataFromHTML_Trustpilot` fills in. -/
structure ProductData where
  productName : String
  reviewSite : String
  stars : String
  totalReviews : String
  allReviews : List Review
deriving DecidableEq, Repr

/-- `parsedDataFromHTML_Trustpilot`, over the extracted `h1` text, the
extracted rating text, and the extracted review cards. -/
def parsedDataFromHTML_Trustpilot (h1Text starsText : String) (cards : List TpCard) :
    ProductData :=
  let h1 := jsTrim h1Text
  let (productName, totalReviews) :=
    match tpHeaderMatch h1 with
    | some (name, count) => (name, jsReplace count "," "")
    | none => (h1, "")
  { productName, reviewSite := "Trustpilot", stars := jsTrim starsText, totalReviews,
    allReviews := cards.map tpCardToReview }

/-! The retry loops (G2/Capterra shape, and the Trustpilot shape). -/

/-- Outcome of a single fetch+parse attempt in the G2/Capterra retry loop. -/
inductive AttemptOutcome (α : Type) where
  | fetchError
  | parseError
  | parsed (reviews : List α)
deriving DecidableEq, Repr

/-- Result of the G2/Capterra retry loop: `aborted` models `return null`
after a parse error on the final attempt, `thrown` models the rethrown fetch
error on the final attempt. -/
inductive RetryResult (α : Type) where
  | aborted
  | thrown
  | ok (reviews : List α)
deriving DecidableEq, Repr

/-- The `for (let attempt = 1; attempt <= 3; attempt++)` retry loop of
`scrapeG2WithProxy` / `scrapeAndFilterReviews_Capterra`, over the list of
remaining attempt outcomes. Returns the result, the number of attempts
performed, and the delays (in ms) awaited between them. -/
def g2RetryGo {α : Type} : List (AttemptOutcome α) → RetryResult α × Nat × List Nat
  | [] => (.ok [], 0, [])
  | [o] =>
    match o with
    | .parsed [] => (.ok [], 1, [5000])
    | .parsed revs => (.ok revs, 1, [])
    | .parseError => (.aborted, 1, [])
    | .fetchError => (.thrown, 1, [])
  | o :: rest =>
    match o with
    | .parsed [] =>
      let r := g2RetryGo rest
      (r.1, r.2.1 + 1, 5000 :: r.2.2)
    | .parsed revs => (.ok revs, 1, [])
    | .parseError =>
      let r := g2RetryGo rest
      (r.1, r.2.1 + 1, r.2.2)
    | .fetchError =>
      let r := g2RetryGo rest
      (r.1, r.2.1 + 1, 5000 :: r.2.2)

/-- The three-attempt G2/Capterra retry unit. -/
def g2Retry {α : Type} (o1 o2 o3 : AttemptOutcome α) : RetryResult α × Nat × List Nat :=
  g2RetryGo [o1, o2, o3]

/-- Outcome of a single attempt in the Trustpilot per-page retry loop:
either the fetch throws, or it yields a body whose parse is an error
(`none`) or a review list, alongside whether that body has a next-page
link. -/
inductive TpAttempt where
  | fetchError
  | fetched (parse : Option (List Review)) (hasNext : Bool)
deriving DecidableEq, Repr

/-- Result of the Trustpilot per-page retry loop. `crashed` models the
`TypeError` raised by `parsedResult.error` when every attempt's fetch threw
and `parsedResult` is still undefined. -/
inductive TpRetryResult where
  | crashed
  | parseErr
  | okPage (reviews : List Review) (hasNext : Bool)
deriving DecidableEq, Repr

/-- The Trustpilot retry loop over the remaining attempts; `prev` carries the
last successful fetch's parse and next-link flag (the values of
`parsedResult` / `resp` entering the iteration). -/
def tpRetryGo (prev : Option (List Review × Bool)) :
    List TpAttempt → TpRetryResult × Nat × List Nat
  | [] =>
    (match prev with
     | none => (.crashed, 0, [])
     | some (revs, hn) => (.okPage revs hn, 0, []))
  | a :: rest =>
    match a with
    | .fetchError =>
      let r := tpRetryGo prev rest
      (r.1, r.2.1 + 1, if rest.isEmpty then r.2.2 else 5000 :: r.2.2)
    | .fetched none _ => (.parseErr, 1, [])
    | .fetched (some []) hn =>
      let r := tpRetryGo (some ([], hn)) rest
      (r.1, r.2.1 + 1, if rest.isEmpty then r.2.2 else 5000 :: r.2.2)
    | .fetched (some (rv :: rvs)) hn => (.okPage (rv :: rvs) hn, 1, [])

/-- The three-attempt Trustpilot retry unit. -/
def tpRetry (a1 a2 a3 : TpAttempt) : TpRetryResult × Nat × List Nat :=
  tpRetryGo none [a1, a2, a3]

/-! The Trustpilot pagination loop (`scrapeAllPages_Trustpilot`). -/

/-- Result of the pagination loop: the accumulated filtered reviews plus the
index of the page on which the loop stopped, or a crash on that page. -/
inductive TpScrapeOutcome where
  | out (allReviews : List Review) (pagesUsed : Nat)
  | crash (pagesUsed : Nat)
deriving DecidableEq, Repr

def TpScrapeOutcome.pagesUsed : TpScrapeOutcome → Nat
  | .out _ p => p
  | .crash p => p

def TpScrapeOutcome.allReviews : TpScrapeOutcome → List Review
  | .out revs _ => revs
  | .crash _ => []

/-- The per-page date filter of `scrapeAllPages_Trustpilot`
(`new Date(r.reviewDate) >= startDate && <= endDate`). -/
def tpFilterPage (startD endD : Option JsDate) (revs : List Review) : List Review :=
  revs.filter fun r =>
    jsCmpGE (jsNewDateString r.reviewDate) startD
      && jsCmpLE (jsNewDateString r.reviewDate) endD

/-- The `while (true)` pagination loop, over the per-page post-retry
outcomes; `fuel` only bounds the recursion (`none` means the loop was still
running after `fuel` pages). -/
def scrapeAllPages_Trustpilot_go (pages : Nat → TpRetryResult)
    (startD endD : Option JsDate) : Nat → Nat → List Review → Option TpScrapeOutcome
  | 0, _, _ => none
  | fuel + 1, page, acc =>
    match pages page with
    | .crashed => some (.crash page)
    | .parseErr => some (.out acc page)
    | .okPage [] _ => some (.out acc page)
    | .okPage (rv :: rvs) hasNext =>
      let acc2 := acc ++ tpFilterPage startD endD (rv :: rvs)
      let lastReview := rvs.getLastD rv
      if jsCmpLT (jsNewDateString lastReview.reviewDate) startD then some (.out acc2 page)
      else if !hasNext then some (.out acc2 page)
      else scrapeAllPages_Trustpilot_go pages startD endD fuel (page + 1) acc2

/-- `scrapeAllPages_Trustpilot`, starting from page 1 with an empty
accumulator. -/
def scrapeAllPages_Trustpilot (pages : Nat → TpRetryResult)
    (startDateStr endDateStr : String) (fuel : Nat) : Option TpScrapeOutcome :=
  scrapeAllPages_Trustpilot_go pages (jsNewDateString startDateStr)
    (jsNewDateString endDateStr) fuel 1 []

/-- The four termination conditions named by the spec: a parse error, zero
records after retries, oldest record older than the range start, or no
next-page link. -/
def tpPageHaltsFour (p : TpRetryResult) (startD : Option JsDate) : Bool :=
  match p with
  | .crashed => false
  | .parseErr => true
  | .okPage [] _ => true
  | .okPage (rv :: rvs) hasNext =>
    jsCmpLT (jsNewDateString ((rvs.getLastD rv).reviewDate)) startD || !hasNext

/-- The actual halting condition of the loop: the four spec conditions, plus
the crash when every attempt's fetch threw. -/
def tpPageHalts (p : TpRetryResult) (startD : Option JsDate) : Bool :=
  match p with
  | .crashed => true
  | _ => tpPageHaltsFour p startD

/-! The G2 parser (`parseG2HtmlContent`), modeled over the per-element
strings its cheerio selectors extract. -/

/-- A G2 review record (the tagged-union variant with like / dislike /
problemsSolved instead of reviewText). -/
structure G2Review where
  reviewerName : String
  jobTitle : String
  reviewDate : String
  stars : String
  reviewTitle : String
  like : String
  dislike : String
  problemsSolved : String
deriving DecidableEq, Repr

/-- The raw extractions for one G2 review element. -/
structure G2Elem where
  reviewBodyText : String
  nameText : String
  reviewerText : String
  datetimeAttr : Option String
  dateText : String
  jobTitleText : String
deriving DecidableEq, Repr

def isQuoteChar (c : Char) : Bool := c == '"' || c == '\''

/-- The title cleanup `replace(/^["']+|["']+$/g, '')`. -/
def stripEdgeQuotes (s : String) : String :=
  let l := s.toList.dropWhile isQuoteChar
  String.mk ((l.reverse.dropWhile isQuoteChar).reverse)

/-- Match of `(\d+(?:\.\d+)?)\s*\/\s*5` at the head of the list, returning
the captured number (with the optional fractional part dropped again when
keeping it would make the `/5` tail fail). -/
def ratingMatchAt (cs : List Char) : Option String :=
  let ds := cs.takeWhile Char.isDigit
  if ds.isEmpty then none
  else
    let rest := cs.drop ds.length
    let tail5 : List Char → Bool := fun r =>
      match r.dropWhile Char.isWhitespace with
      | '/' :: r2 =>
        (match r2.dropWhile Char.isWhitespace with
         | '5' :: _ => true
         | _ => false)
      | _ => false
    match rest with
    | '.' :: r2 =>
      let fs := r2.takeWhile Char.isDigit
      if fs.isEmpty then (if tail5 rest then some (String.mk ds) else none)
      else if tail5 (r2.drop fs.length) then some (String.mk (ds ++ '.' :: fs))
      else if tail5 rest then some (String.mk ds)
      else none
    | _ => if tail5 rest then some (String.mk ds) else none

/-- Leftmost match of the rating pattern in the text. -/
def firstRatingMatch : List Char → Option String
  | [] => none
  | c :: cs =>
    match ratingMatchAt (c :: cs) with
    | some g => some g
    | none => firstRatingMatch cs

/-- The leading-rating strip `replace(/^[0-5](?:\.\d+)?\/5/, '')`. -/
def stripRating (s : String) : String :=
  match s.toList with
  | c :: '.' :: r2 =>
    if '0' ≤ c ∧ c ≤ '5' then
      let fs := r2.takeWhile Char.isDigit
      if fs.isEmpty then s
      else
        match r2.drop fs.length with
        | '/' :: '5' :: r3 => String.mk r3
        | _ => s
    else s
  | c :: '/' :: '5' :: r3 => if '0' ≤ c ∧ c ≤ '5' then String.mk r3 else s
  | _ => s

/-- The newline collapse `replace(/\n+/g, ' ')`; the flag records whether the
previous character was part of a newline run. -/
def collapseNewlines : List Char → Bool → List Char
  | [], _ => []
  | c :: rest, prevNl =>
    if c == '\n' then
      (if prevNl then collapseNewlines rest true else ' ' :: collapseNewlines rest true)
    else c :: collapseNewlines rest false

/-- The review-text cleaning chain of `parseG2HtmlContent` (rating prefix,
G2 collection boilerplate, trailing `Show More`, newline collapse, trim). -/
def g2CleanReviewText (originalReviewText : String) : String :=
  let t1 := stripRating originalReviewText
  let t2 := jsReplace t1 "Review collected by and hosted on G2.com." ""
  let t3 := if jsEndsWith t2 "Show More" then t2.dropRight "Show More".length else t2
  jsTrim (String.mk (collapseNewlines t3.toList false))

/-- The `[^?]*\?` step of the Q&A regexes: skip to and over the first
question mark. -/
def skipToQMark : List Char → Option (List Char)
  | [] => none
  | '?' :: rest => some rest
  | _ :: rest => skipToQMark rest

/-- The lazy capture `([^?]*?)` bounded by the lookahead
`(?=stop₁|stop₂|$)`: the shortest question-mark-free segment ending where one
of the stop markers matches case-insensitively, or at the end of the text. -/
def lazyCaptureCI (stops : List (List Char)) : List Char → List Char → Option (List Char)
  | cs, acc =>
    if stops.any (fun st => subAtCI st cs) then some acc.reverse
    else
      match cs with
      | [] => some acc.reverse
      | c :: rest => if c == '?' then none else lazyCaptureCI stops rest (c :: acc)

/-- One Q&A regex of `parseG2HtmlContent`
(`marker[^?]*\?\s*([^?]*?)(?=stop₁|stop₂|$)` with the `i` flag), anchored at
the first case-insensitive occurrence of the marker. -/
def g2Answer (text marker : String) (stops : List String) : Option String :=
  match findSubCI marker.toList text.toList with
  | none => none
  | some i =>
    match skipToQMark (text.toList.drop (i + marker.toList.length)) with
    | none => none
    | some afterQ =>
      let afterWs := afterQ.dropWhile Char.isWhitespace
      match lazyCaptureCI (stops.map String.toList) afterWs [] with
      | none => none
      | some cap => some (String.mk cap)

/-- The three marker-bounded Q&A extractions of `parseG2HtmlContent`; a
missing match leaves the section empty, a match is trimmed. -/
def g2Sections (reviewText : String) : String × String × String :=
  let like :=
    match g2Answer reviewText "What do you like best about"
        ["What do you dislike", "What problems"] with
    | some a => jsTrim a
    | none => ""
  let dislike :=
    match g2Answer reviewText "What do you dislike about"
        ["What problems", "What do you like"] with
    | some a => jsTrim a
    | none => ""
  let problemsSolved :=
    match g2Answer reviewText "What problems"
        ["What do you like", "What do you dislike"] with
    | some a => jsTrim a
    | none => ""
  (like, dislike, problemsSolved)

/-- The review title of one G2 element (nameText, `Review N` fallback, edge
quotes stripped, trimmed). -/
def g2ReviewTitleOf (reviewCount : Nat) (el : G2Elem) : String :=
  let reviewTitle0 :=
    if jsTrim el.nameText == "" then "Review " ++ toString (reviewCount + 1)
    else jsTrim el.nameText
  jsTrim (stripEdgeQuotes reviewTitle0)

/-- The star rating of one G2 element (`N/A` when the `d/5` pattern is
absent from the raw review text). -/
def g2StarsOf (el : G2Elem) : String :=
  match firstRatingMatch (jsTrim el.reviewBodyText).toList with
  | some g => g
  | none => "N/A"

/-- The reviewer name of one G2 element (`Anonymous-N` fallback makes it
always non-empty). -/
def g2ReviewerNameOf (reviewCount : Nat) (el : G2Elem) : String :=
  if jsTrim el.reviewerText == "" then "Anonymous-" ++ toString (reviewCount + 1)
  else jsTrim el.reviewerText

/-- The review date of one G2 element: the datetime attribute, the date text,
or the fixed stand-in `2024-06-01`. -/
def g2ReviewDateOf (el : G2Elem) : String :=
  let rd0 := match el.datetimeAttr with
    | some a =>
      if a == "" then (if jsTrim el.dateText == "" then "2024-06-01" else jsTrim el.dateText)
      else a
    | none => if jsTrim el.dateText == "" then "2024-06-01" else jsTrim el.dateText
  if rd0 == "Unknown Date" || rd0 == "" then "2024-06-01" else rd0

/-- The job title of one G2 element (`N/A` fallback). -/
def g2JobTitleOf (el : G2Elem) : String :=
  if jsTrim el.jobTitleText == "" then "N/A" else jsTrim el.jobTitleText

/-- The body of the `reviewBodies.each` loop of `parseG2HtmlContent`:
`reviewCount` is the number of records pushed so far (it feeds the
`Review N` / `Anonymous-N` fallbacks); `none` models the noise guard that
skips the element. -/
def g2ElemToReview (reviewCount : Nat) (el : G2Elem) : Option G2Review :=
  let reviewText := g2CleanReviewText (jsTrim el.reviewBodyText)
  let s := g2Sections reviewText
  if s.1 == "" && s.2.1 == "" && s.2.2 == "" && reviewText.length < 10 then none
  else
    some { reviewerName := g2ReviewerNameOf reviewCount el,
           jobTitle := g2JobTitleOf el,
           reviewDate := g2ReviewDateOf el,
           stars := g2StarsOf el,
           reviewTitle := g2ReviewTitleOf reviewCount el,
           like := s.1, dislike := s.2.1, problemsSolved := s.2.2 }

/-- The full `reviewBodies.each` loop, threading the pushed-record count. -/
def g2Records : List G2Elem → Nat → List G2Review
  | [], _ => []
  | e :: es, count =>
    match g2ElemToReview count e with
    | some r => r :: g2Records es (count + 1)
    | none => g2Records es count

/-- Greedy match of `\d+(?:,\d+)*` continuing after an initial digit run:
consumes further `,digits` groups while they parse. -/
def commaGroups : List Char → List Char → List Char × List Char
  | ',' :: rest, acc =>
    let ds := rest.takeWhile Char.isDigit
    if ds.isEmpty then (acc, ',' :: rest)
    else commaGroups (rest.drop ds.length) (acc ++ ',' :: ds)
  | cs, acc => (acc, cs)
termination_by cs _ => cs.length
decreasing_by
  simp only [List.length_cons, List.length_drop]
  omega

/-- Match of `(\d+(?:,\d+)*)\s*review` (flag `i`) at the head of the list. -/
def countReviewAt (cs : List Char) : Option (List Char) :=
  let ds := cs.takeWhile Char.isDigit
  if ds.isEmpty then none
  else
    let g := commaGroups (cs.drop ds.length) ds
    let r := g.2.dropWhile Char.isWhitespace
    if subAtCI "review".toList r then some g.1 else none

/-- Leftmost match of the count pattern in the text. -/
def g2FindCountReview : List Char → Option (List Char)
  | [] => none
  | c :: cs =>
    match countReviewAt (c :: cs) with
    | some g => some g
    | none => g2FindCountReview cs

/-- The totalReviews cleanup of `parseG2HtmlContent` (lines 120-125): keep
the digits group of `(\d+(?:,\d+)*)\s*review/i` when the raw selector text is
truthy, not `N/A`, and matches. -/
def g2CleanTotalReviews (raw : String) : String :=
  if raw != "" && raw != "N/A" then
    match g2FindCountReview raw.toList with
    | some g => String.mk g
    | none => raw
  else raw

/-- The parts of `parseG2HtmlContent`'s page result the claims concern
(productName and stars header extraction are not modeled: no claim touches
them). -/
structure G2PageData where
  totalReviews : String
  allReviews : List G2Review
deriving DecidableEq, Repr

/-- `parseG2HtmlContent` over the extracted raw review-count text and the
extracted review elements. -/
def parseG2HtmlContent (rawTotalReviews : String) (elems : List G2Elem) : G2PageData :=
  { totalReviews := g2CleanTotalReviews rawTotalReviews,
    allReviews := g2Records elems 0 }

/-! The G2 pagination loop (`scrapeG2WithProxy`, lines 313-349). -/

/-- The per-review date filter used by `scrapeG2WithProxy`
(`isReviewInDateRange(review.reviewDate, startDate, endDate)`). -/
def g2Filter (now : JsDate) (startDate endDate : String) (revs : List G2Review) :
    List G2Review :=
  revs.filter fun r => isReviewInDateRange now r.reviewDate startDate endDate

/-- The `while (currentPage <= maxPages && filteredReviews.length < maxReviews)`
loop; `pages n` is the parsed review list of page `n` (`none` when the page
fetch threw, which breaks the loop). Returns the filtered and raw
accumulators and the page index at which the loop stopped. -/
def scrapeG2_go (pages : Nat → Option (List G2Review)) (now : JsDate)
    (startDate endDate : String) (maxReviews maxPages : Nat) (currentPage : Nat)
    (filtered all : List G2Review) : List G2Review × List G2Review × Nat :=
  if h : currentPage ≤ maxPages ∧ filtered.length < maxReviews then
    match pages currentPage with
    | none => (filtered, all, currentPage)
    | some [] => (filtered, all, currentPage)
    | some (rv :: rvs) =>
      scrapeG2_go pages now startDate endDate maxReviews maxPages (currentPage + 1)
        (filtered ++ g2Filter now startDate endDate (rv :: rvs)) (all ++ rv :: rvs)
  else (filtered, all, currentPage)
termination_by maxPages + 1 - currentPage
decreasing_by omega

/-- The post-retry tail of `scrapeG2WithProxy`: date-filter the first page,
run the pagination loop when more reviews are wanted and the first page had
at least 10, then truncate the filtered set to `maxReviews`. Returns the
final filtered list, the raw accumulated list, and the stopping page. -/
def scrapeG2WithProxy_model (firstPage : List G2Review)
    (pages : Nat → Option (List G2Review)) (now : JsDate)
    (startDate endDate : String) (maxReviews : Nat) :
    List G2Review × List G2Review × Nat :=
  let allReviews := firstPage
  let filteredReviews := g2Filter now startDate endDate firstPage
  let maxPages := (maxReviews + 9) / 10
  let st :=
    if filteredReviews.length < maxReviews ∧ 10 ≤ allReviews.length then
      scrapeG2_go pages now startDate endDate maxReviews maxPages 2
        filteredReviews allReviews
    else (filteredReviews, allReviews, 2)
  (if maxReviews < st.1.length then st.1.take maxReviews else st.1, st.2.1, st.2.2)

/-! The Capterra parser (`parsedDataFromHTML_Capterra`), modeled over the
per-card strings its cheerio selectors extract. -/

/-- The raw extractions for one Capterra review card; `textCandidates` are
the `reviewTextSelectors` extraction results in order. -/
structure CapCard where
  reviewerName : String
  fullProfileText : String
  stars : String
  reviewDate : String
  textCandidates : List String
deriving DecidableEq, Repr

/-- The review-text fallback chain: first non-empty candidate that does not
contain `Comments:`, `Pros:` or `Cons:`. -/
def capReviewText : List String → String
  | [] => ""
  | t0 :: rest =>
    let text := jsTrim t0
    if text != "" && !containsSub text "Comments:" && !containsSub text "Pros:"
        && !containsSub text "Cons:" then text
    else capReviewText rest

/-- The fixed ordered industry-keyword lexicon of the profile decomposition. -/
def industryKeywords : List String :=
  ["Computer Software", "Information Technology", "Technology and Services",
   "Marketing and Advertising", "Food & Beverages", "Real Estate",
   "Mechanical or Industrial Engineering", "Financial Services", "Insurance",
   "Software", "Technology", "Services", "Engineering", "Estate",
   "Beverages", "Marketing", "Advertising", "Financial"]

/-- One `[A-Z][a-z]+` word at the head of the list. -/
def capWordAt (cs : List Char) : Option (List Char) :=
  match cs with
  | c :: rest =>
    if c.isUpper then
      let ls := rest.takeWhile Char.isLower
      if ls.isEmpty then none else some (rest.drop ls.length)
    else none
  | [] => none

theorem capWordAt_lt {cs r : List Char} (h : capWordAt cs = some r) :
    r.length < cs.length := by
  cases cs with
  | nil => simp [capWordAt] at h
  | cons c rest =>
    simp only [capWordAt] at h
    split at h
    · split at h
      · exact absurd h (by simp)
      · injection h with h
        subst h
        simp only [List.length_drop, List.length_cons]
        omega
    · exact absurd h (by simp)

/-- The `(?:\s+[A-Z][a-z]+)*` repetition followed by `\s+[A-Z]\.\s*` of the
name-strip regex, greedy over further words. -/
def capNameTail (cs : List Char) : Option (List Char) :=
  if (cs.takeWhile Char.isWhitespace).isEmpty then none
  else
    match hm : capWordAt (cs.drop (cs.takeWhile Char.isWhitespace).length) with
    | some r2 => capNameTail r2
    | none =>
      match cs.drop (cs.takeWhile Char.isWhitespace).length with
      | c :: '.' :: r3 =>
        if c.isUpper then some (r3.dropWhile Char.isWhitespace) else none
      | _ => none
termination_by cs.length
decreasing_by
  have h1 := capWordAt_lt hm
  simp only [List.length_drop] at h1
  omega

/-- The name-strip `replace(/^[A-Z][a-z]+(?:\s+[A-Z][a-z]+)*\s+[A-Z]\.\s*/, '')`:
`some` is the remainder when the anchored pattern matched. -/
def stripLeadingName (cs : List Char) : Option (List Char) :=
  match capWordAt cs with
  | some r => capNameTail r
  | none => none

/-- Earliest index in `cs` at which one of the cleanup words occurs. -/
def capCleanupWords : List String :=
  ["Computer", "Information", "Technology", "Marketing", "Real", "Food",
   "Financial", "Mechanical"]

def firstWordHit (words : List (List Char)) : List Char → Nat → Option Nat
  | [], _ => none
  | c :: rest, i =>
    if words.any (fun w => subAt w (c :: rest)) then some i
    else firstWordHit words rest (i + 1)

/-- The job-title cleanup
`replace(/\s*(Computer|Information|...|Mechanical).*$/, '')`: cut at the
earliest cleanup word, extending the cut left over the whitespace run
immediately before it (the leftmost `\s*`). -/
def capJobCleanup (s : String) : String :=
  match firstWordHit (capCleanupWords.map String.toList) s.toList 0 with
  | none => s
  | some i =>
    let kept := s.toList.take i
    String.mk ((kept.reverse.dropWhile Char.isWhitespace).reverse)

/-- JavaScript `indexOf` of a needle string. -/
def jsIndexOf (hay needle : String) : Option Nat :=
  findSubAux false needle.toList hay.toList 0

/-- The profile-text decomposition of `parsedDataFromHTML_Capterra`, reduced
to the `jobTitle` it produces (usageDuration and industry are computed by the
source but never stored in the record). -/
def capJobTitle (fullProfileText : String) : String :=
  if fullProfileText == "" then ""
  else
    let remainingText0 :=
      match jsIndexOf fullProfileText "Used the software for:" with
      | some i => String.mk (fullProfileText.toList.take i)
      | none => fullProfileText
    let remainingText := jsTrim remainingText0
    let cleanText :=
      match stripLeadingName remainingText.toList with
      | some r => String.mk r
      | none =>
        if subAt "Verified Reviewer".toList remainingText.toList then
          String.mk ((remainingText.toList.drop "Verified Reviewer".length).dropWhile
            Char.isWhitespace)
        else remainingText
    let split :=
      industryKeywords.findSome? fun keyword =>
        match jsIndexOf cleanText keyword with
        | some i => if 0 < i then some (jsTrim (String.mk (cleanText.toList.take i))) else none
        | none => none
    let jobTitle0 :=
      match split with
      | some jt => jt
      | none => if cleanText != "" then jsTrim cleanText else ""
    jsTrim (capJobCleanup jobTitle0)

/-- The body of the `reviewCards.each` loop: the guard keeps the record only
when the reviewer name or the review text is non-empty. -/
def capRecordOfCard (card : CapCard) : Option Review :=
  let reviewerName := jsTrim card.reviewerName
  let jobTitle := capJobTitle (jsTrim card.fullProfileText)
  let stars := jsTrim card.stars
  let reviewDate := jsTrim card.reviewDate
  let reviewText := capReviewText card.textCandidates
  if reviewerName != "" || reviewText != "" then
    some { reviewerName, jobTitle, reviewDate, stars, reviewTitle := "", reviewText }
  else none

/-- The product-name fallback chain with the `Reviews of` strip. -/
def capProductName : List String → String
  | [] => ""
  | t :: rest =>
    let name := jsTrim t
    if name != "" then
      let dropped :=
        if subAtCI "Reviews".toList name.toList then
          let r1 := (name.toList.drop "Reviews".length).dropWhile Char.isWhitespace
          if subAtCI "of".toList r1 then
            some ((r1.drop "of".length).dropWhile Char.isWhitespace)
          else none
        else none
      match dropped with
      | some r => jsTrim (String.mk r)
      | none => name
    else capProductName rest

/-- Match of `^(\d+\.?\d*)` (leading numeric token, optional dot). -/
def capLeadingNum (s : String) : Option String :=
  let ds := s.toList.takeWhile Char.isDigit
  if ds.isEmpty then none
  else
    match s.toList.drop ds.length with
    | '.' :: r2 => some (String.mk (ds ++ '.' :: r2.takeWhile Char.isDigit))
    | _ => some (String.mk ds)

/-- The stars fallback chain of `parsedDataFromHTML_Capterra`: candidates are
the found selector texts in order; a candidate that fails the leading-number
match is kept raw, and the first non-empty value wins. -/
def capStars : List String → String
  | [] => ""
  | t :: rest =>
    let stars0 := jsTrim t
    let stars := match capLeadingNum stars0 with
      | some g => g
      | none => stars0
    if stars != "" then stars else capStars rest

/-- `parsedDataFromHTML_Capterra`, over the extracted name and stars
candidate texts and the extracted review cards; `totalReviews` is the count
of records actually extracted. -/
def parsedDataFromHTML_Capterra (nameCandidates starsCandidates : List String)
    (cards : List CapCard) : ProductData :=
  let allReviews := cards.filterMap capRecordOfCard
  { productName := capProductName nameCandidates, reviewSite := "Capterra",
    stars := capStars starsCandidates,
    totalReviews := toString allReviews.length, allReviews }

/-! Helper lemmas. -/

theorem g2RetryGo_bounds {α : Type} :
    ∀ l : List (AttemptOutcome α),
      (g2RetryGo l).2.1 ≤ l.length ∧ ∀ d ∈ (g2RetryGo l).2.2, d = 5000 := by
  intro l
  induction l with
  | nil => simp [g2RetryGo]
  | cons o rest ih =>
    cases rest with
    | nil =>
      cases o with
      | parsed revs => cases revs <;> simp [g2RetryGo]
      | parseError => simp [g2RetryGo]
      | fetchError => simp [g2RetryGo]
    | cons o2 rest2 =>
      cases o with
      | parsed revs =>
        cases revs with
        | nil =>
          refine ⟨?_, ?_⟩
          · simp only [g2RetryGo, List.length_cons]
            have h1 := ih.1
            simp only [List.length_cons] at h1
            omega
          · intro d hd
            simp only [g2RetryGo, List.mem_cons] at hd
            rcases hd with h | h
            · exact h
            · exact ih.2 d h
        | cons rv rvs => simp [g2RetryGo]
      | parseError =>
        refine ⟨?_, fun d hd => ?_⟩
        · simp only [g2RetryGo, List.length_cons]
          have h1 := ih.1
          simp only [List.length_cons] at h1
          omega
        · simp only [g2RetryGo] at hd
          exact ih.2 d hd
      | fetchError =>
        refine ⟨?_, fun d hd => ?_⟩
        · simp only [g2RetryGo, List.length_cons]
          have h1 := ih.1
          simp only [List.length_cons] at h1
          omega
        · simp only [g2RetryGo, List.mem_cons] at hd
          rcases hd with h | h
          · exact h
          · exact ih.2 d h

theorem tpRetryGo_bounds :
    ∀ (l : List TpAttempt) (prev : Option (List Review × Bool)),
      (tpRetryGo prev l).2.1 ≤ l.length ∧ ∀ d ∈ (tpRetryGo prev l).2.2, d = 5000 := by
  intro l
  induction l with
  | nil =>
    intro prev
    rcases prev with _ | ⟨revs, hn⟩ <;> simp [tpRetryGo]
  | cons a rest ih =>
    intro prev
    cases a with
    | fetchError =>
      refine ⟨?_, fun d hd => ?_⟩
      · simp only [tpRetryGo, List.length_cons]
        have := (ih prev).1
        omega
      · simp only [tpRetryGo] at hd
        split at hd
        · exact (ih prev).2 d hd
        · rcases List.mem_cons.mp hd with h | h
          · exact h
          · exact (ih prev).2 d h
    | fetched p hn =>
      cases p with
      | none => simp [tpRetryGo]
      | some revs =>
        cases revs with
        | nil =>
          refine ⟨?_, fun d hd => ?_⟩
          · simp only [tpRetryGo, List.length_cons]
            have := (ih (some ([], hn))).1
            omega
          · simp only [tpRetryGo] at hd
            split at hd
            · exact (ih (some ([], hn))).2 d hd
            · rcases List.mem_cons.mp hd with h | h
              · exact h
              · exact (ih (some ([], hn))).2 d h
        | cons rv rvs => simp [tpRetryGo]

theorem borrowMonthsAux (k : Nat) :
    ∀ (m y : Int), (-m).toNat ≤ k →
      (borrowMonths m y).2 * 12 + (borrowMonths m y).1 = y * 12 + m ∧
      0 ≤ (borrowMonths m y).1 ∧ (m < 12 → (borrowMonths m y).1 < 12) := by
  induction k with
  | zero =>
    intro m y hk
    have hm : ¬m < 0 := by omega
    rw [borrowMonths, if_neg hm]
    exact ⟨rfl, by omega, fun h => h⟩
  | succ n ih =>
    intro m y hk
    by_cases hm : m < 0
    · rw [borrowMonths, if_pos hm]
      have h2 := ih (m + 12) (y - 1) (by omega)
      refine ⟨?_, h2.2.1, fun _ => h2.2.2 (by omega)⟩
      have := h2.1
      omega
    · rw [borrowMonths, if_neg hm]
      exact ⟨rfl, by omega, fun h => h⟩

theorem borrowMonths_spec (m y : Int) :
    (borrowMonths m y).2 * 12 + (borrowMonths m y).1 = y * 12 + m ∧
    0 ≤ (borrowMonths m y).1 ∧ (m < 12 → (borrowMonths m y).1 < 12) :=
  borrowMonthsAux ((-m).toNat) m y (le_refl _)

/-! Claim theorems. -/

/-- C10: for every input that is not an array, and for the empty array,
`convertToCSV` returns the empty string (no header row is emitted). -/
theorem convertToCSV_degenerate (v : JsVal) :
    convertToCSV (.notArray v) = "" ∧ convertToCSV (.array []) = "" :=
  ⟨rfl, rfl⟩

/-- C8: for every non-empty record list, the CSV export's header row is the
key set of the first record in insertion order, every value is rendered
inside double quotes with embedded double quotes doubled, and the first
record's keys govern every row; concretely,
`[{a:1,b:"x,y"},{a:2,b:'he said "hi"'}]` converts to header `a,b` with rows
`"1","x,y"` and `"2","he said ""hi"""`. -/
theorem convertToCSV_contract :
    (∀ (first : JsRecord) (rest : List JsRecord),
        convertToCSV (.array (first :: rest))
          = String.intercalate "\n"
              (specCsvHeader first :: (first :: rest).map (specCsvRow first))) ∧
    convertToCSV (.array [[("a", .vnum 1), ("b", .vstr "x,y")],
        [("a", .vnum 2), ("b", .vstr "he said \"hi\"")]])
      = "a,b\n\"1\",\"x,y\"\n\"2\",\"he said \"\"hi\"\"\"" := by
  constructor
  · intro first rest
    rfl
  · rfl

/-- C5: on the G2 review text
`What do you like best about X? Great support What do you dislike about X? Slow UI`,
the marker-bounded Q&A extraction captures like = `Great support`,
dislike = `Slow UI`, and problemsSolved = `` - each answer runs from after
its question marker to the next of the other markers or the end of the
text. -/
theorem g2QASections_example :
    g2Sections
        "What do you like best about X? Great support What do you dislike about X? Slow UI"
      = ("Great support", "Slow UI", "") := rfl

/-- C9 counterexample: the Capterra parser's `totalReviews` is the count of
records actually extracted (here 1 vs 2 with identical header inputs), not a
platform-reported figure independent of extraction. -/
theorem totalReviews_cex :
    (parsedDataFromHTML_Capterra [] [] [⟨"Ann", "", "", "", ["x"]⟩]).totalReviews = "1" ∧
    (parsedDataFromHTML_Capterra [] []
        [⟨"Ann", "", "", "", ["x"]⟩, ⟨"Bob", "", "", "", ["y"]⟩]).totalReviews = "2" :=
  ⟨rfl, rfl⟩

/-- C9, amended: for Trustpilot and G2 the `totalReviews` field is computed
from the page-header text alone (so it is independent of the extracted
records, and on a Trustpilot header it is the platform-reported count with
commas stripped); for Capterra, `totalReviews` is the string-encoded number
of records actually extracted. -/
theorem totalReviews_amended (h1Text starsText : String) (cards cards' : List TpCard)
    (rawTR : String) (elems elems' : List G2Elem)
    (nameCands starsCands : List String) (capCards : List CapCard) :
    (parsedDataFromHTML_Trustpilot h1Text starsText cards).totalReviews
      = (parsedDataFromHTML_Trustpilot h1Text starsText cards').totalReviews ∧
    (parseG2HtmlContent rawTR elems).totalReviews
      = (parseG2HtmlContent rawTR elems').totalReviews ∧
    (parsedDataFromHTML_Capterra nameCands starsCands capCards).totalReviews
      = toString (capCards.filterMap capRecordOfCard).length ∧
    (parsedDataFromHTML_Trustpilot "Acme Reviews 1,915" "" []).totalReviews = "1915" := by
  refine ⟨?_, rfl, rfl, rfl⟩
  rcases htm : tpHeaderMatch (jsTrim h1Text) with _ | ⟨name, count⟩ <;>
    simp [parsedDataFromHTML_Trustpilot, htm]

/-- C4 counterexample: the Trustpilot parser emits a record for a review
card all of whose fields extract as empty, so the emitted record has both
`reviewerName` and `reviewText` empty. -/
theorem reviewRecordInvariant_cex :
    (parsedDataFromHTML_Trustpilot "" "" [⟨"", none, "", "", none, ""⟩]).allReviews
      = [⟨"", "", "", "", "", ""⟩] := rfl

theorem capRecordOfCard_nonEmpty (card : CapCard) (r : Review)
    (h : capRecordOfCard card = some r) :
    r.reviewerName ≠ "" ∨ r.reviewText ≠ "" := by
  simp only [capRecordOfCard] at h
  split at h
  next hguard =>
    have h2 := Option.some.inj h
    subst h2
    simpa [not_and_or] using hguard
  next => exact absurd h (by simp)

theorem g2ReviewerNameOf_nonEmpty (n : Nat) (el : G2Elem) :
    g2ReviewerNameOf n el ≠ "" := by
  unfold g2ReviewerNameOf
  split
  next =>
    intro hEq
    have h1 : ("Anonymous-" ++ toString (n + 1)).length = 0 := by rw [hEq]; rfl
    rw [String.length_append] at h1
    have h2 : ("Anonymous-" : String).length = 10 := rfl
    omega
  next hcond => simpa using hcond

theorem g2ElemToReview_nonEmpty (n : Nat) (el : G2Elem) (r : G2Review)
    (h : g2ElemToReview n el = some r) : r.reviewerName ≠ "" := by
  simp only [g2ElemToReview] at h
  split at h
  next => exact absurd h (by simp)
  next =>
    have h2 := Option.some.inj h
    subst h2
    exact g2ReviewerNameOf_nonEmpty n el

theorem g2ElemToReview_drop (n : Nat) (el : G2Elem)
    (hs : g2Sections (g2CleanReviewText (jsTrim el.reviewBodyText)) = ("", "", ""))
    (hlen : (g2CleanReviewText (jsTrim el.reviewBodyText)).length < 10) :
    g2ElemToReview n el = none := by
  simp [g2ElemToReview, hs, hlen]

theorem g2ElemToReview_keep (n : Nat) (el : G2Elem)
    (hs : g2Sections (g2CleanReviewText (jsTrim el.reviewBodyText)) = ("", "", ""))
    (hlen : 10 ≤ (g2CleanReviewText (jsTrim el.reviewBodyText)).length) :
    g2ElemToReview n el
      = some ⟨g2ReviewerNameOf n el, g2JobTitleOf el, g2ReviewDateOf el,
              g2StarsOf el, g2ReviewTitleOf n el, "", "", ""⟩ := by
  have hge : ¬((g2CleanReviewText (jsTrim el.reviewBodyText)).length < 10) := by omega
  simp [g2ElemToReview, hs, hge]

theorem tpParse_allCards (h1Text starsText : String) (cards : List TpCard) :
    (parsedDataFromHTML_Trustpilot h1Text starsText cards).allReviews
      = cards.map tpCardToReview := by
  rcases htm : tpHeaderMatch (jsTrim h1Text) with _ | ⟨name, count⟩ <;>
    simp [parsedDataFromHTML_Trustpilot, htm]

/-- C4, amended: every record emitted by the Capterra parser has a non-empty
reviewerName or reviewText (the explicit guard); every record emitted by the
G2 parser has a non-empty reviewerName (synthesized when extraction is
empty), and a G2 element whose three Q&A sections are empty is dropped
exactly when its cleaned review text is shorter than 10 characters - below
the threshold no record exists, at or above it the record (with empty
sections) is emitted; the Trustpilot parser, however, emits one record per
matched card unconditionally, even when every field extracts as empty. -/
theorem reviewRecordInvariant_amended :
    (∀ (card : CapCard) (r : Review), capRecordOfCard card = some r →
        r.reviewerName ≠ "" ∨ r.reviewText ≠ "") ∧
    (∀ (n : Nat) (el : G2Elem) (r : G2Review), g2ElemToReview n el = some r →
        r.reviewerName ≠ "") ∧
    (∀ (n : Nat) (el : G2Elem),
        g2Sections (g2CleanReviewText (jsTrim el.reviewBodyText)) = ("", "", "") →
        (g2CleanReviewText (jsTrim el.reviewBodyText)).length < 10 →
        g2ElemToReview n el = none) ∧
    (∀ (n : Nat) (el : G2Elem),
        g2Sections (g2CleanReviewText (jsTrim el.reviewBodyText)) = ("", "", "") →
        10 ≤ (g2CleanReviewText (jsTrim el.reviewBodyText)).length →
        g2ElemToReview n el
          = some ⟨g2ReviewerNameOf n el, g2JobTitleOf el, g2ReviewDateOf el,
                  g2StarsOf el, g2ReviewTitleOf n el, "", "", ""⟩) ∧
    (∀ (h1Text starsText : String) (cards : List TpCard),
        (parsedDataFromHTML_Trustpilot h1Text starsText cards).allReviews
          = cards.map tpCardToReview) :=
  ⟨capRecordOfCard_nonEmpty, g2ElemToReview_nonEmpty, g2ElemToReview_drop,
   g2ElemToReview_keep, tpParse_allCards⟩

/-- C4 witness: the amended invariant applied to a concrete Capterra card. -/
theorem reviewRecordInvariant_amended_witness :
    (⟨"Ann", "", "", "", "", "great"⟩ : Review).reviewerName ≠ ""
      ∨ (⟨"Ann", "", "", "", "", "great"⟩ : Review).reviewText ≠ "" :=
  reviewRecordInvariant_amended.1 ⟨"Ann", "", "", "", ["great"]⟩
    ⟨"Ann", "", "", "", "", "great"⟩ (by decide)

/-- C1: for every platform, one fetch+parse unit is attempted at most 3
times, every delay awaited between attempts is the fixed 5000 ms, an attempt
that parses to zero records is retried up to the same limit, and after the
third zero-record attempt the empty result is accepted as the final outcome
(`ok []` / `okPage []`) rather than treated as failure. -/
theorem retryPolicy_bounded {α : Type} (o1 o2 o3 : AttemptOutcome α)
    (a1 a2 a3 : TpAttempt) :
    (g2Retry o1 o2 o3).2.1 ≤ 3 ∧
    (∀ d ∈ (g2Retry o1 o2 o3).2.2, d = 5000) ∧
    (tpRetry a1 a2 a3).2.1 ≤ 3 ∧
    (∀ d ∈ (tpRetry a1 a2 a3).2.2, d = 5000) ∧
    g2Retry (AttemptOutcome.parsed ([] : List α)) (.parsed []) (.parsed [])
      = (.ok [], 3, [5000, 5000, 5000]) ∧
    (∀ (rv : α) (rvs : List α) (o : AttemptOutcome α),
      g2Retry (.parsed []) (.parsed (rv :: rvs)) o = (.ok (rv :: rvs), 2, [5000])) ∧
    (∀ hn1 hn2 hn3 : Bool,
      tpRetry (.fetched (some []) hn1) (.fetched (some []) hn2)
          (.fetched (some []) hn3)
        = (.okPage [] hn3, 3, [5000, 5000])) := by
  refine ⟨?_, ?_, ?_, ?_, rfl, fun rv rvs o => rfl, fun hn1 hn2 hn3 => rfl⟩
  · simpa using (g2RetryGo_bounds [o1, o2, o3]).1
  · exact (g2RetryGo_bounds [o1, o2, o3]).2
  · simpa using (tpRetryGo_bounds [a1, a2, a3] none).1
  · exact (tpRetryGo_bounds [a1, a2, a3] none).2

/-- C1 witness: the retry bounds at a concrete run of three zero-record
attempts on each platform. -/
theorem retryPolicy_bounded_witness :
    (g2Retry (AttemptOutcome.parsed ([] : List Nat)) (.parsed []) (.parsed [])).2.1 ≤ 3 ∧
    (∀ d ∈ (g2Retry (AttemptOutcome.parsed ([] : List Nat)) (.parsed [])
        (.parsed [])).2.2, d = 5000) ∧
    (tpRetry (.fetched (some []) true) (.fetched (some []) true)
        (.fetched (some []) true)).2.1 ≤ 3 ∧
    (∀ d ∈ (tpRetry (.fetched (some []) true) (.fetched (some []) true)
        (.fetched (some []) true)).2.2, d = 5000) := by
  have h := retryPolicy_bounded (AttemptOutcome.parsed ([] : List Nat)) (.parsed [])
    (.parsed []) (.fetched (some []) true) (.fetched (some []) true)
    (.fetched (some []) true)
  exact ⟨h.1, h.2.1, h.2.2.1, h.2.2.2.1⟩

/-- C2: for every relative-time string whose lowered form contains `month`
but not `year` and whose leading integer parses to `n`, the result keeps the
reference day, and its year and month are the reference's minus `n` months
with 12 borrowed per negative overflow (so year*12+month drops by exactly
`n` and the month lands in 0..11); concretely, `2 months ago` from
2024-03-15 is 2024-01-15 and `14 months ago` from 2024-03-15 is
2023-01-15. -/
theorem calculateDateFromRelative_monthsAgo :
    (∀ (now : JsDate) (s : String) (n : Nat),
        containsSub (jsToLower s) "year" = false →
        containsSub (jsToLower s) "month" = true →
        jsParseInt s = some (n : Int) →
        0 ≤ now.month → now.month < 12 →
        ∃ r : JsDate, calculateDateFromRelative now s = some r ∧
          r.day = now.day ∧ 0 ≤ r.month ∧ r.month < 12 ∧
          r.year * 12 + r.month = now.year * 12 + now.month - n) ∧
    calculateDateFromRelative ⟨2024, 2, 15⟩ "2 months ago" = some ⟨2024, 0, 15⟩ ∧
    calculateDateFromRelative ⟨2024, 2, 15⟩ "14 months ago" = some ⟨2023, 0, 15⟩ := by
  have main : ∀ (now : JsDate) (s : String) (n : Nat),
      containsSub (jsToLower s) "year" = false →
      containsSub (jsToLower s) "month" = true →
      jsParseInt s = some (n : Int) →
      0 ≤ now.month → now.month < 12 →
      ∃ r : JsDate, calculateDateFromRelative now s = some r ∧
        r.day = now.day ∧ 0 ≤ r.month ∧ r.month < 12 ∧
        r.year * 12 + r.month = now.year * 12 + now.month - n := by
    intro now s n hYear hMonth hParse hm0 hm1
    obtain ⟨hb1, hb2, hb3⟩ := borrowMonths_spec (now.month - (n : Int)) now.year
    refine ⟨⟨(borrowMonths (now.month - (n : Int)) now.year).2,
            (borrowMonths (now.month - (n : Int)) now.year).1, now.day⟩, ?_, rfl, hb2,
            hb3 (by omega), ?_⟩
    · simp [calculateDateFromRelative, hYear, hMonth, hParse]
    · show (borrowMonths (now.month - (n : Int)) now.year).2 * 12 +
          (borrowMonths (now.month - (n : Int)) now.year).1
          = now.year * 12 + now.month - (n : Int)
      omega
  refine ⟨main, ?_, ?_⟩
  · obtain ⟨r, hEq, hday, h0, h12, hsum⟩ :=
      main ⟨2024, 2, 15⟩ "2 months ago" 2 (by decide) (by decide) (by decide)
        (by decide) (by decide)
    obtain ⟨ry, rm, rd⟩ := r
    simp only [] at hday hsum h0 h12
    have : ry = 2024 ∧ rm = 0 ∧ rd = 15 := by
      refine ⟨by omega, by omega, ?_⟩
      simpa using hday
    obtain ⟨rfl, rfl, rfl⟩ := this
    exact hEq
  · obtain ⟨r, hEq, hday, h0, h12, hsum⟩ :=
      main ⟨2024, 2, 15⟩ "14 months ago" 14 (by decide) (by decide) (by decide)
        (by decide) (by decide)
    obtain ⟨ry, rm, rd⟩ := r
    simp only [] at hday hsum h0 h12
    have : ry = 2023 ∧ rm = 0 ∧ rd = 15 := by
      refine ⟨by omega, by omega, ?_⟩
      simpa using hday
    obtain ⟨rfl, rfl, rfl⟩ := this
    exact hEq

/-- C2 witness: the general statement applied at a concrete reference date
and string. -/
theorem calculateDateFromRelative_monthsAgo_witness :
    ∃ r : JsDate, calculateDateFromRelative ⟨2024, 2, 15⟩ "2 months ago" = some r ∧
      r.day = (⟨2024, 2, 15⟩ : JsDate).day ∧ 0 ≤ r.month ∧ r.month < 12 ∧
      r.year * 12 + r.month = 2024 * 12 + (⟨2024, 2, 15⟩ : JsDate).month - 2 :=
  calculateDateFromRelative_monthsAgo.1 ⟨2024, 2, 15⟩ "2 months ago" 2
    (by decide) (by decide) (by decide) (by decide) (by decide)

/-- C3: date-range filtering is inclusive at both endpoints - a review whose
date resolves to exactly the start or exactly the end of the (well-ordered)
range is retained by `filterReviewsByDate` and accepted by
`isReviewInDateRange` - and a review whose date string fails to resolve is
excluded by both. -/
theorem dateRangeFilter_inclusiveBounds
    (reviews : List Review) (s e : String) (r : Review) (S E : JsDate)
    (now : JsDate) (rds : String)
    (hs : parseDate s = some S) (he : parseDate e = some E)
    (hse : S.value ≤ E.value) (hr : r ∈ reviews)
    (hs2 : jsNewDateString s = some S) (he2 : jsNewDateString e = some E) :
    ((∃ D, parseDate r.reviewDate = some D ∧ (D.value = S.value ∨ D.value = E.value)) →
        r ∈ filterReviewsByDate reviews s e) ∧
    (parseDate r.reviewDate = none → r ∉ filterReviewsByDate reviews s e) ∧
    ((∃ D, calculateDateFromRelative now rds = some D ∧
        (D.value = S.value ∨ D.value = E.value)) →
        isReviewInDateRange now rds s e = true) ∧
    (calculateDateFromRelative now rds = none →
        isReviewInDateRange now rds s e = false) := by
  refine ⟨?_, ?_, ?_, ?_⟩
  · rintro ⟨D, hD, hcase⟩
    simp only [filterReviewsByDate, List.mem_filter]
    refine ⟨hr, ?_⟩
    simp only [hD, hs, he, jsCmpGE, jsCmpLE, Option.isSome_some, Bool.true_and,
      Bool.and_eq_true, decide_eq_true_eq]
    rcases hcase with h | h <;> omega
  · intro hD hmem
    simp only [filterReviewsByDate, List.mem_filter] at hmem
    simp [hD] at hmem
  · rintro ⟨D, hD, hcase⟩
    simp only [isReviewInDateRange, hD, hs2, he2, jsCmpGE, jsCmpLE,
      Bool.and_eq_true, decide_eq_true_eq]
    rcases hcase with h | h <;> exact ⟨by omega, by omega⟩
  · intro hD
    simp [isReviewInDateRange, hD, jsCmpGE]

/-- C3 witness: concrete range 2023-01-01 .. 2023-12-31 - a review dated
exactly at the end is retained, an unresolvable date string is excluded, and
`isReviewInDateRange` accepts the exact start date. -/
theorem dateRangeFilter_inclusiveBounds_witness :
    ((⟨"a", "", "2023-12-31", "", "", ""⟩ : Review) ∈
        filterReviewsByDate [⟨"a", "", "2023-12-31", "", "", ""⟩,
          ⟨"b", "", "not a date", "", "", ""⟩] "2023-01-01" "2023-12-31") ∧
    ((⟨"b", "", "not a date", "", "", ""⟩ : Review) ∉
        filterReviewsByDate [⟨"a", "", "2023-12-31", "", "", ""⟩,
          ⟨"b", "", "not a date", "", "", ""⟩] "2023-01-01" "2023-12-31") ∧
    isReviewInDateRange ⟨2024, 5, 1⟩ "2023-01-01" "2023-01-01" "2023-12-31" = true := by
  refine ⟨?_, ?_, ?_⟩
  · exact (dateRangeFilter_inclusiveBounds
      [⟨"a", "", "2023-12-31", "", "", ""⟩, ⟨"b", "", "not a date", "", "", ""⟩]
      "2023-01-01" "2023-12-31" ⟨"a", "", "2023-12-31", "", "", ""⟩
      ⟨2023, 0, 1⟩ ⟨2023, 11, 31⟩ ⟨2024, 5, 1⟩ "2023-01-01"
      (by decide) (by decide) (by decide) (by decide) (by decide) (by decide)).1
      ⟨⟨2023, 11, 31⟩, by decide, Or.inr (by decide)⟩
  · exact (dateRangeFilter_inclusiveBounds
      [⟨"a", "", "2023-12-31", "", "", ""⟩, ⟨"b", "", "not a date", "", "", ""⟩]
      "2023-01-01" "2023-12-31" ⟨"b", "", "not a date", "", "", ""⟩
      ⟨2023, 0, 1⟩ ⟨2023, 11, 31⟩ ⟨2024, 5, 1⟩ "2023-01-01"
      (by decide) (by decide) (by decide) (by decide) (by decide) (by decide)).2.1
      (by decide)
  · exact (dateRangeFilter_inclusiveBounds
      [⟨"a", "", "2023-12-31", "", "", ""⟩, ⟨"b", "", "not a date", "", "", ""⟩]
      "2023-01-01" "2023-12-31" ⟨"a", "", "2023-12-31", "", "", ""⟩
      ⟨2023, 0, 1⟩ ⟨2023, 11, 31⟩ ⟨2024, 5, 1⟩ "2023-01-01"
      (by decide) (by decide) (by decide) (by decide) (by decide) (by decide)).2.2.1
      ⟨⟨2023, 0, 1⟩, by decide, Or.inl (by decide)⟩

theorem tpGo_firstHalt (pages : Nat → TpRetryResult) (startD endD : Option JsDate) :
    ∀ (off : Nat) (page : Nat) (acc : List Review),
      (∀ j, j < off → tpPageHalts (pages (page + j)) startD = false) →
      tpPageHalts (pages (page + off)) startD = true →
      (∀ fuel, off < fuel →
        ∃ o, scrapeAllPages_Trustpilot_go pages startD endD fuel page acc = some o ∧
          o.pagesUsed = page + off) ∧
      (∀ fuel, fuel ≤ off →
        scrapeAllPages_Trustpilot_go pages startD endD fuel page acc = none) := by
  intro off
  induction off with
  | zero =>
    intro page acc _ hk
    rw [Nat.add_zero] at hk
    constructor
    · intro fuel hf
      match fuel, hf with
      | fuel + 1, _ =>
        cases hp : pages page with
        | crashed =>
          exact ⟨.crash page, by simp [scrapeAllPages_Trustpilot_go, hp], rfl⟩
        | parseErr =>
          exact ⟨.out acc page, by simp [scrapeAllPages_Trustpilot_go, hp], rfl⟩
        | okPage revs hn =>
          cases revs with
          | nil =>
            exact ⟨.out acc page, by simp [scrapeAllPages_Trustpilot_go, hp], rfl⟩
          | cons rv rvs =>
            rw [hp] at hk
            simp only [tpPageHalts, tpPageHaltsFour, Bool.or_eq_true] at hk
            by_cases hlt : jsCmpLT (jsNewDateString ((rvs.getLastD rv).reviewDate))
                startD = true
            · refine ⟨.out (acc ++ tpFilterPage startD endD (rv :: rvs)) page, ?_, rfl⟩
              simp only [scrapeAllPages_Trustpilot_go, hp]
              rw [if_pos hlt]
            · have hn' : hn = false := by
                rcases hk with h | h
                · exact absurd h hlt
                · simpa using h
              subst hn'
              refine ⟨.out (acc ++ tpFilterPage startD endD (rv :: rvs)) page, ?_, rfl⟩
              simp only [scrapeAllPages_Trustpilot_go, hp]
              rw [if_neg hlt, if_pos (by decide : (!false) = true)]
    · intro fuel hf
      have : fuel = 0 := by omega
      subst this
      rfl
  | succ off ih =>
    intro page acc hbefore hk
    have h0 : tpPageHalts (pages (page + 0)) startD = false := hbefore 0 (by omega)
    rw [Nat.add_zero] at h0
    cases hp : pages page with
    | crashed => rw [hp] at h0; simp [tpPageHalts] at h0
    | parseErr => rw [hp] at h0; simp [tpPageHalts, tpPageHaltsFour] at h0
    | okPage revs hn =>
      cases revs with
      | nil => rw [hp] at h0; simp [tpPageHalts, tpPageHaltsFour] at h0
      | cons rv rvs =>
        rw [hp] at h0
        simp only [tpPageHalts, tpPageHaltsFour, Bool.or_eq_false_iff] at h0
        obtain ⟨hlt, hnext⟩ := h0
        have hn' : hn = true := by simpa using hnext
        subst hn'
        have ihh := ih (page + 1) (acc ++ tpFilterPage startD endD (rv :: rvs))
          (fun j hj => by
            have h := hbefore (j + 1) (by omega)
            rwa [show page + (j + 1) = page + 1 + j by omega] at h)
          (by
            have := hk
            rwa [show page + (off + 1) = page + 1 + off by omega] at this)
        constructor
        · intro fuel hf
          match fuel, hf with
          | fuel + 1, _ =>
            obtain ⟨o, ho, hpu⟩ := ihh.1 fuel (by omega)
            refine ⟨o, ?_, by omega⟩
            simp only [scrapeAllPages_Trustpilot_go, hp, hlt, Bool.not_true, if_false,
              Bool.false_eq_true]
            exact ho
        · intro fuel hf
          cases fuel with
          | zero => rfl
          | succ fuel =>
            have h2 := ihh.2 fuel (by omega)
            simp only [scrapeAllPages_Trustpilot_go, hp, hlt, Bool.not_true, if_false,
              Bool.false_eq_true]
            exact h2

/-- C6 counterexample: a page on which all three fetch attempts threw makes
the pagination loop terminate by the `parsedResult.error` crash - a fifth
termination cause - while none of the four conditions named by the claim
holds on that page. -/
theorem tpPagination_cex :
    scrapeAllPages_Trustpilot (fun _ => TpRetryResult.crashed)
        "2023-01-01" "2023-12-31" 5 = some (TpScrapeOutcome.crash 1) ∧
    tpPageHaltsFour TpRetryResult.crashed (jsNewDateString "2023-01-01") = false :=
  ⟨rfl, rfl⟩

/-- C6, amended: the Trustpilot pagination loop halts exactly at the first
page where one of five conditions holds - the four from the claim (parse
error, zero records after retries, oldest record older than the range
start, no next-page link) or the crash raised when every attempt's fetch
threw - and with fewer fuel steps than that index it is still running; in
particular, when some page satisfies a condition the loop halts within a
bounded number of iterations. -/
theorem tpPagination_firstHalt (pages : Nat → TpRetryResult) (s e : String) (k : Nat)
    (hk1 : 1 ≤ k)
    (hbefore : ∀ j, 1 ≤ j → j < k → tpPageHalts (pages j) (jsNewDateString s) = false)
    (hhalt : tpPageHalts (pages k) (jsNewDateString s) = true) :
    (∀ fuel, k ≤ fuel →
      ∃ o, scrapeAllPages_Trustpilot pages s e fuel = some o ∧ o.pagesUsed = k) ∧
    (∀ fuel, fuel < k → scrapeAllPages_Trustpilot pages s e fuel = none) := by
  have h := tpGo_firstHalt pages (jsNewDateString s) (jsNewDateString e) (k - 1) 1 []
    (fun j hj => hbefore (1 + j) (by omega) (by omega))
    (by rwa [show 1 + (k - 1) = k by omega])
  constructor
  · intro fuel hf
    obtain ⟨o, ho, hpu⟩ := h.1 fuel (by omega)
    exact ⟨o, ho, by omega⟩
  · intro fuel hf
    exact h.2 fuel (by omega)

/-- C6 witness: a descending-chronological fixture whose dates cross the
range start on page 2 - the loop halts there with fuel 5. -/
theorem tpPagination_firstHalt_witness :
    ∃ o, scrapeAllPages_Trustpilot
        (fun p => if p = 1 then .okPage [⟨"a", "", "2023-06-01", "", "", ""⟩] true
                  else .okPage [⟨"b", "", "2022-12-31", "", "", ""⟩] true)
        "2023-01-01" "2023-12-31" 5 = some o ∧ o.pagesUsed = 2 :=
  (tpPagination_firstHalt
    (fun p => if p = 1 then .okPage [⟨"a", "", "2023-06-01", "", "", ""⟩] true
              else .okPage [⟨"b", "", "2022-12-31", "", "", ""⟩] true)
    "2023-01-01" "2023-12-31" 2 (by omega)
    (fun j hj1 hj2 => by
      have : j = 1 := by omega
      subst this
      decide)
    (by decide)).1 5 (by omega)

theorem truncate_le (maxReviews : Nat) (l : List G2Review) :
    (if maxReviews < l.length then l.take maxReviews else l).length ≤ maxReviews := by
  split
  next h => simp only [List.length_take]; omega
  next h => omega

theorem scrapeG2_go_agree (now : JsDate) (s e : String) (maxReviews maxPages : Nat) :
    ∀ (k currentPage : Nat) (f a : List G2Review)
      (pages pages' : Nat → Option (List G2Review)),
      maxPages + 1 - currentPage ≤ k →
      (∀ i, currentPage ≤ i → i ≤ maxPages → pages i = pages' i) →
      scrapeG2_go pages now s e maxReviews maxPages currentPage f a
        = scrapeG2_go pages' now s e maxReviews maxPages currentPage f a := by
  intro k
  induction k with
  | zero =>
    intro cp f a pages pages' hk hag
    have hcp : ¬(cp ≤ maxPages ∧ f.length < maxReviews) := by
      intro h
      omega
    rw [scrapeG2_go, scrapeG2_go, dif_neg hcp, dif_neg hcp]
  | succ k ih =>
    intro cp f a pages pages' hk hag
    rw [scrapeG2_go, scrapeG2_go]
    by_cases hc : cp ≤ maxPages ∧ f.length < maxReviews
    · rw [dif_pos hc, dif_pos hc, ← hag cp (le_refl cp) hc.1]
      cases hpc : pages cp with
      | none => rfl
      | some revs =>
        cases revs with
        | nil => rfl
        | cons rv rvs =>
          exact ih (cp + 1) _ _ pages pages' (by omega)
            (fun i h1 h2 => hag i (by omega) h2)
    · rw [dif_neg hc, dif_neg hc]

/-- C7: for every G2 job, the pagination result is unchanged when the page
source is only modified beyond the page limit `ceil(maxReviews / 10)` (so no
page past the limit is ever consulted), the loop returns immediately from
any page that parses to zero records, and the returned filtered list is
truncated to at most `maxReviews` entries. -/
theorem scrapeG2_pagination_bounds (firstPage : List G2Review)
    (pages pages' : Nat → Option (List G2Review)) (now : JsDate) (s e : String)
    (maxReviews k : Nat)
    (hagree : ∀ i, 2 ≤ i → i ≤ (maxReviews + 9) / 10 → pages i = pages' i)
    (hk : pages k = some []) :
    (scrapeG2WithProxy_model firstPage pages now s e maxReviews).1.length
      ≤ maxReviews ∧
    scrapeG2WithProxy_model firstPage pages now s e maxReviews
      = scrapeG2WithProxy_model firstPage pages' now s e maxReviews ∧
    (∀ f a, scrapeG2_go pages now s e maxReviews ((maxReviews + 9) / 10) k f a
      = (f, a, k)) := by
  refine ⟨?_, ?_, ?_⟩
  · simp only [scrapeG2WithProxy_model]
    exact truncate_le maxReviews _
  · simp only [scrapeG2WithProxy_model]
    rw [scrapeG2_go_agree now s e maxReviews ((maxReviews + 9) / 10)
      ((maxReviews + 9) / 10 + 1) 2 (g2Filter now s e firstPage) firstPage
      pages pages' (by omega) (fun i h1 h2 => hagree i h1 h2)]
  · intro f a
    rw [scrapeG2_go]
    by_cases hc : k ≤ (maxReviews + 9) / 10 ∧ f.length < maxReviews
    · rw [dif_pos hc, hk]
    · rw [dif_neg hc]

/-- C7 witness: the theorem applied to a concrete job with maxReviews = 50
and a page source whose pages are all empty. -/
theorem scrapeG2_pagination_bounds_witness :
    ((scrapeG2WithProxy_model [] (fun _ => some []) ⟨2024, 0, 1⟩
        "2023-01-01" "2023-12-31" 50).1.length ≤ 50) ∧
    (∀ f a, scrapeG2_go (fun _ => some []) ⟨2024, 0, 1⟩ "2023-01-01" "2023-12-31"
        50 ((50 + 9) / 10) 2 f a = (f, a, 2)) := by
  have h := scrapeG2_pagination_bounds [] (fun _ => some []) (fun _ => some [])
    ⟨2024, 0, 1⟩ "2023-01-01" "2023-12-31" 50 2 (fun i h1 h2 => rfl) rfl
  exact ⟨h.1, h.2.2⟩

end ReviewsScraper
